import Mathlib

/-!
# Verification of the `templet` node evaluator (`src/nodes.cpp`)

This file gives a shallow embedding of the template-node core of the
`templet` library: the value model (`Data`, `DataMap`), the path resolver
(`parse_tag` and its helpers), the node hierarchy with its evaluator
(`evalNode`), and the per-tag-kind parsers (`parse_value_tag`,
`parse_forvalue_tag`).  C++ exceptions are modelled with `Except` carrying
the error kind and the message thrown at each `throw` site.

Definitions follow `src/nodes.cpp` function by function; the few helpers
that live in the external `mylib` string-utility headers (trim, split,
prefix/suffix checks), which are not part of the sources, are modelled
from the specification and marked as such.
-/

set_option maxHeartbeats 1000000
set_option maxRecDepth 4000

namespace Templet

/-- The three `templet::exception` error classes thrown by `nodes.cpp`,
plus `runtimeError` for the `std::` exceptions that `std::string::erase`
can raise at an out-of-range position.  The `String` argument is the
message passed at the `throw` site. -/
inductive TemplateError where
  | invalidTag (msg : String)
  | missingTag (msg : String)
  | expressionSyntaxError (msg : String)
  | runtimeError (msg : String)
  deriving DecidableEq, Repr

/-- `true` exactly on `MissingTagError`; the `catch` clause in
`Value::evaluate` discriminates exceptions by this class. -/
def TemplateError.isMissingTag : TemplateError → Bool
  | .missingTag _ => true
  | _ => false

/-- `true` exactly on `InvalidTagError`. -/
def TemplateError.isInvalidTag : TemplateError → Bool
  | .invalidTag _ => true
  | _ => false

/-- `templet::types::DataPtr`: a value is a string scalar, an ordered
list of values, or a mapping from names to values
(`DataType::String` / `DataType::List` / `DataType::Mapper`).
A mapping (`DataMap`, a `std::map` keyed by `std::string`) is modelled
as an association list with at most one entry per key. -/
inductive Data where
  | str (s : String)
  | list (items : List Data)
  | map (entries : List (String × Data))
  deriving Repr

/-- `templet::types::DataMap`. -/
abbrev DataMap := List (String × Data)

/-- `std::map::count` (0/1 for a unique-key map, so a `Bool`). -/
def dmCount (kv : DataMap) (k : String) : Bool :=
  match kv with
  | [] => false
  | (k', _) :: rest => k' == k || dmCount rest k

/-- `std::map::at`, in checked form: the code always guards `at` with
`count`, so the lookup is total as an `Option`. -/
def dmFind? (kv : DataMap) (k : String) : Option Data :=
  match kv with
  | [] => none
  | (k', v) :: rest => if k' == k then some v else dmFind? rest k

/-- `std::map::operator[]` followed by assignment: replace the entry for
`k` when present (keys are unique), otherwise add a new entry. -/
def dmInsert (kv : DataMap) (k : String) (v : Data) : DataMap :=
  match kv with
  | [] => [(k, v)]
  | (k', v') :: rest => if k' == k then (k, v) :: rest else (k', v') :: dmInsert rest k v

/-- The character class accepted by `isValidName`'s `genericNameValidator`
lambda: `[A-Za-z0-9_-]`. -/
def genericNameChar (c : Char) : Bool :=
  decide (('a' ≤ c ∧ c ≤ 'z') ∨ ('A' ≤ c ∧ c ≤ 'Z') ∨ ('0' ≤ c ∧ c ≤ '9') ∨ c = '_' ∨ c = '-')

/-- The character class accepted by `isValidNameExpression`'s
`specialNameValidator` lambda: `[A-Za-z0-9_\-\[\]\.]`. -/
def specialNameChar (c : Char) : Bool :=
  genericNameChar c || decide (c = '[' ∨ c = ']' ∨ c = '.')

/-- `name.find("..") != std::string::npos`: the string contains two
consecutive dots. -/
def hasDoubleDot : List Char → Bool
  | [] => false
  | [_] => false
  | c :: c2 :: rest => (c == '.' && c2 == '.') || hasDoubleDot (c2 :: rest)

/-- `isValidName` (alias validation): every character is in
`[A-Za-z0-9_-]`.  Note that `std::all_of` is vacuously true on the empty
string. -/
def isValidName (name : String) : Bool :=
  name.data.all genericNameChar

/-- `isValidNameExpression` (path validation): every character is in
`[A-Za-z0-9_\-\[\]\.]` and `..` does not occur.  Vacuously true on the
empty string. -/
def isValidNameExpression (name : String) : Bool :=
  name.data.all specialNameChar && !hasDoubleDot name.data

/-- The whitespace class of `std::isspace` / `std::ws` in the default
locale. -/
def isSpaceChar (c : Char) : Bool :=
  decide (c = ' ' ∨ c = '\t' ∨ c = '\n' ∨ c = '\x0b' ∨ c = '\x0c' ∨ c = '\r')

/-- Value of a non-empty digit string, base 10. -/
def digitsToInt (ds : List Char) : Int :=
  ds.foldl (fun acc c => acc * 10 + ((c.toNat : Int) - 48)) 0

/-- `parse_number`: `istringstream >> int >> std::ws` followed by an EOF
check.  The stream accepts optional leading whitespace, an optional sign,
at least one decimal digit, then optional trailing whitespace, and
nothing else.  (The `int` overflow failure of `operator>>` is not
modelled; indexes are unbounded here.) -/
def parse_number (text : List Char) : Option Int :=
  let afterWs := text.dropWhile isSpaceChar
  let signAndRest : Int × List Char :=
    match afterWs with
    | '-' :: rest => (-1, rest)
    | '+' :: rest => (1, rest)
    | _ => (1, afterWs)
  let digits := signAndRest.2.takeWhile Char.isDigit
  let rest := signAndRest.2.dropWhile Char.isDigit
  if digits.isEmpty then none
  else if (rest.dropWhile isSpaceChar).isEmpty then some (signAndRest.1 * digitsToInt digits)
  else none

/-- `parse_array_index`: given a string like `[5]`, return 5.  Fails
`InvalidTag` unless the string is enclosed in `[`/`]` and the interior
parses as an integer.  Negative results are allowed here (the caller
rejects them). -/
def parse_array_index (s : List Char) : Except TemplateError Int :=
  if s.head? == some '[' && s.getLast? == some ']' then
    -- in.substr(1, in.size() - 2): the text strictly inside the brackets
    match parse_number ((s.drop 1).dropLast) with
    | some n => .ok n
    | none => .error (.invalidTag "Invalid array index: Value must be an integer")
  else .error (.invalidTag "Invalid array syntax: Value must be enclosed with []")

/-- `parse_tag_name`: split a single segment `config[5]` into
`("config", 5)`.  A segment without `[` gets index `-1` (the code's
"no index" sentinel); a parsed negative index fails `InvalidTag`. -/
def parse_tag_name (s : List Char) : Except TemplateError (List Char × Int) :=
  match s.findIdx? (fun c => c == '[') with
  | none => .ok (s, -1)
  | some p =>
    match parse_array_index (s.drop p) with
    | .error e => .error e
    | .ok idx =>
      if idx < 0 then .error (.invalidTag "Invalid array index: Value must not be negative")
      else .ok (s.take p, idx)

/-- Split a character list at every occurrence of `sep`, keeping empty
parts; the result is always non-empty. -/
def splitOnChar (sep : Char) : List Char → List (List Char)
  | [] => [[]]
  | c :: rest =>
    if c == sep then [] :: splitOnChar sep rest
    else
      match splitOnChar sep rest with
      | s :: ss => (c :: s) :: ss
      | [] => [[c]]

/-- The segments processed by the `while(true)` loop of `parse_tag`.
The loop repeatedly takes the text before the first `.` and erases
through the dot; when the remaining text becomes empty the segment in
hand is treated as the last one, so a single trailing empty part (from a
name that is empty after its final `.`) is never processed.  Splitting on
`.` and dropping one trailing empty part reproduces the sequence. -/
def pathSegments (name : List Char) : List (List Char) :=
  let parts := splitOnChar '.' name
  match parts.getLast? with
  | some [] => if parts.length ≥ 2 then parts.dropLast else parts
  | _ => parts

/-- The body of `parse_tag`'s loop, one call per segment.  `seg` is the
segment being processed and `rest` the segments still to process (the
loop's final-segment branch runs when `rest` is empty).  For each
segment: parse it with `parse_tag_name`, fail `MissingTag` if the name is
not a key of the current map, then either return the referenced value
(last segment) or descend into a nested map — directly, or through an
in-range list element that is itself a map.  The `idx >= data.size()`
comparisons convert the `int` index to `size_t`, so a negative index at a
descending step is also "out of range". -/
def resolveSegs (seg : List Char) (rest : List (List Char)) (kv : DataMap) :
    Except TemplateError Data :=
  match parse_tag_name seg with
  | .error e => .error e
  | .ok (mapName, idx) =>
    match dmFind? kv (String.mk mapName) with
    | none => .error (.missingTag "Tag name not found")
    | some dataValue =>
      match rest with
      | [] =>
        -- Retrieve the last tag
        if idx < 0 then .ok dataValue
        else
          match dataValue with
          | .list data =>
            if (data.length : Int) ≤ idx then .error (.invalidTag "Index out of range")
            else .ok (data.getD idx.toNat (.str ""))
          | _ => .error (.invalidTag "Only lists are supported by array indexes")
      | seg2 :: rest2 =>
        -- Names parsed before the last tag name must reference a map,
        -- directly or as a map element of a list
        match dataValue with
        | .map m => resolveSegs seg2 rest2 m
        | .list data =>
          if idx < 0 ∨ (data.length : Int) ≤ idx then
            .error (.invalidTag "Index out of range")
          else
            match data.getD idx.toNat (.str "") with
            | .map m => resolveSegs seg2 rest2 m
            | _ => .error (.invalidTag "Invalid index: Name does not match a map object")
        | _ => .error (.invalidTag "Invalid index: Name does not match a map object")

/-- `parse_tag`: resolve a full dotted/indexed path such as
`config.servers[1].users[6].username` against a map. -/
def parse_tag (name : String) (kv : DataMap) : Except TemplateError Data :=
  match pathSegments name.data with
  | [] => .error (.missingTag "Tag name not found") -- unreachable: `pathSegments` is never empty
  | seg :: rest => resolveSegs seg rest kv

/-- `parse_tag_string`: resolve a path and require a string result. -/
def parse_tag_string (name : String) (kv : DataMap) : Except TemplateError String :=
  match parse_tag name kv with
  | .error e => .error e
  | .ok (.str s) => .ok s
  | .ok _ => .error (.invalidTag "Invalid tag name: Name must reference a string")

/-- `parse_tag_list`: resolve a path and require a list result. -/
def parse_tag_list (name : String) (kv : DataMap) : Except TemplateError (List Data) :=
  match parse_tag name kv with
  | .error e => .error e
  | .ok (.list l) => .ok l
  | .ok _ => .error (.invalidTag "Invalid tag name: Name must reference a list")

/-- The node hierarchy of `nodes.hpp`/`nodes.cpp`: `Text`, `Value`,
`IfValue`, `ElifValue`, `ElseValue`, `ForValue`.  Container kinds carry
their attached children in order. -/
inductive Node where
  | text (s : String)
  | value (name : String)
  | ifValue (name : String) (children : List Node)
  | elifValue (name : String) (children : List Node)
  | elseValue (children : List Node)
  | forValue (name : String) (aliasName : String) (children : List Node)
  deriving Repr

/-- `node->type() == NodeType::ElifValue || node->type() == NodeType::ElseValue`:
the test `IfValue::evaluate` applies to each child. -/
def Node.isElifOrElse : Node → Bool
  | .elifValue _ _ => true
  | .elseValue _ => true
  | _ => false

/-- The `Value::Value` constructor: validates the path name, failing
`InvalidTag` when `isValidNameExpression` rejects it. -/
def mkValue (name : String) : Except TemplateError Node :=
  if isValidNameExpression name then .ok (.value name)
  else .error (.invalidTag "Variable tag name contains invalid characters")

/-- The `IfValue::IfValue` constructor (children attached later via
`setChildren`, so the fresh node has none). -/
def mkIfValue (name : String) : Except TemplateError Node :=
  if isValidNameExpression name then .ok (.ifValue name [])
  else .error (.invalidTag "If expression tag name contains invalid characters")

/-- The `ElifValue::ElifValue` constructor: delegates to the `IfValue`
constructor, hence the same validation and message. -/
def mkElifValue (name : String) : Except TemplateError Node :=
  if isValidNameExpression name then .ok (.elifValue name [])
  else .error (.invalidTag "If expression tag name contains invalid characters")

/-- The `ForValue::ForValue` constructor: validates the source path with
`isValidNameExpression` and the aliasName with `isValidName`. -/
def mkForValue (name : String) (aliasName : String) : Except TemplateError Node :=
  if ¬ isValidNameExpression name = true then
    .error (.invalidTag "For expression first tag name contains invalid characters")
  else if ¬ isValidName aliasName = true then
    .error (.invalidTag "For expression second tag name contains invalid characters")
  else .ok (.forValue name aliasName [])

mutual

/-- `Node::evaluate(std::ostream&, const DataMap&)` for each node kind,
returning the text written to the stream (or the propagated exception):

* `Text::evaluate` writes the literal;
* `Value::evaluate` writes the path resolved as a string, catching
  `MissingTagError` (the substitution renders as empty text) and
  rethrowing every other exception;
* `IfValue::evaluate` (inherited unchanged by `ElifValue`) runs the
  children before the first Elif/Else child when the name is a key of the
  context, and otherwise runs every Elif/Else child;
* `ElseValue::evaluate` runs all children;
* `ForValue::evaluate` resolves the source as a list, rejects an aliasName
  that is already a key, then iterates the list, rebinding the aliasName in a
  copied map and running all children per element. -/
def evalNode : Node → DataMap → Except TemplateError String
  | .text s, _ => .ok s
  | .value name, kv =>
    match parse_tag_string name kv with
    | .ok s => .ok s
    | .error e => if e.isMissingTag then .ok "" else .error e
  | .ifValue name cs, kv =>
    if dmCount kv name then evalThen cs kv else evalElse cs kv
  | .elifValue name cs, kv =>
    if dmCount kv name then evalThen cs kv else evalElse cs kv
  | .elseValue cs, kv => evalSeq cs kv
  | .forValue name aliasName cs, kv =>
    match parse_tag_list name kv with
    | .error e => .error e
    | .ok items =>
      if dmCount kv aliasName then
        .error (.invalidTag "For expression alias name collides with an existing name")
      else evalFor aliasName cs items kv

/-- Evaluate a child list in order, concatenating the written text;
the first exception aborts the remaining children (`ElseValue::evaluate`
and the per-iteration body loop of `ForValue::evaluate`). -/
def evalSeq : List Node → DataMap → Except TemplateError String
  | [], _ => .ok ""
  | n :: ns, kv =>
    match evalNode n kv with
    | .error e => .error e
    | .ok s =>
      match evalSeq ns kv with
      | .error e => .error e
      | .ok t => .ok (s ++ t)

/-- The then-branch loop of `IfValue::evaluate`: evaluate children in
order, stopping (via `break`) at the first Elif/Else child. -/
def evalThen : List Node → DataMap → Except TemplateError String
  | [], _ => .ok ""
  | n :: ns, kv =>
    if n.isElifOrElse then .ok ""
    else
      match evalNode n kv with
      | .error e => .error e
      | .ok s =>
        match evalThen ns kv with
        | .error e => .error e
        | .ok t => .ok (s ++ t)

/-- The else-branch loop of `IfValue::evaluate`: walk all children and
evaluate those that are Elif/Else nodes (there is no `break`). -/
def evalElse : List Node → DataMap → Except TemplateError String
  | [], _ => .ok ""
  | n :: ns, kv =>
    if n.isElifOrElse then
      match evalNode n kv with
      | .error e => .error e
      | .ok s =>
        match evalElse ns kv with
        | .error e => .error e
        | .ok t => .ok (s ++ t)
    else evalElse ns kv

/-- The iteration loop of `ForValue::evaluate`: `newValues` starts as a
copy of the caller's map and is threaded through the iterations, the
aliasName entry being overwritten for each list element before the body
children run. -/
def evalFor (aliasName : String) (cs : List Node) :
    List Data → DataMap → Except TemplateError String
  | [], _ => .ok ""
  | item :: rest, newValues =>
    let withItem := dmInsert newValues aliasName item
    match evalSeq cs withItem with
    | .error e => .error e
    | .ok s =>
      match evalFor aliasName cs rest withItem with
      | .error e => .error e
      | .ok t => .ok (s ++ t)

end

/-- Modelled from the spec: `mylib::starts_with` from the `strutils`
header, an excluded "generic string utility (… prefix/suffix checks)" —
whether `pre` is a prefix of `s`. -/
def startsWithChars (s pre : List Char) : Bool :=
  pre.isPrefixOf s

/-- Modelled from the spec: `mylib::ends_with` from the `strutils`
header, an excluded "generic string utility (… prefix/suffix checks)" —
whether `suf` is a suffix of `s`. -/
def endsWithChars (s suf : List Char) : Bool :=
  suf.isSuffixOf s

/-- Modelled from the spec: `mylib::ltrim` from the `trim` header, an
excluded "generic string utility (trim, …)" — strip leading whitespace. -/
def ltrimChars (s : List Char) : List Char :=
  s.dropWhile isSpaceChar

/-- Modelled from the spec: `mylib::trim` from the `trim` header, an
excluded "generic string utility (trim, …)" — strip surrounding
whitespace. -/
def trimChars (s : List Char) : List Char :=
  ((s.dropWhile isSpaceChar).reverse.dropWhile isSpaceChar).reverse

/-- Modelled from the spec: `mylib::split` from the `split` header, an
excluded "generic string utility (… split …)"; the spec's for-tag rule
"split on single spaces into exactly four tokens" is the standard split
at every single separator occurrence, keeping empty tokens. -/
def mylibSplit (s : List Char) (sep : Char) : List (List Char) :=
  splitOnChar sep s

/-- `parse_value_tag`: requires the `{$`/`}` delimiters, takes the text
up to the first `}` after the opening delimiter (the characters between
that `}` and the end are dropped by `in.erase(in.find('}'))`), trims it,
and hands it to the `Value` constructor.  The `find` cannot miss: the
input ends in `}` and, both delimiter checks having passed, that final
`}` survives `erase(0, 2)`. -/
def parse_value_tag (s : String) : Except TemplateError Node :=
  if startsWithChars s.data ['{', '$'] && endsWithChars s.data ['}'] then
    let inner := (s.data.drop 2).takeWhile (fun c => !(c == '}'))
    mkValue (String.mk (trimChars inner))
  else .error (.invalidTag "Tag must be enclosed with \x7b$ and \x7d")

/-- `parse_forvalue_tag`: requires the `{%`/`%}` delimiters, takes the
text up to the first `%` after the opening delimiter, trims it, splits it
on spaces, and requires exactly the four tokens `for <name> as <name>`,
failing `ExpressionSyntaxError` otherwise (`in.erase(in.find('%'))`
throws `std::out_of_range` when no `%` remains, which only the
three-character overlap `\x7b%\x7d` can reach). -/
def parse_forvalue_tag (s : String) : Except TemplateError Node :=
  if startsWithChars s.data ['{', '%'] && endsWithChars s.data ['%', '}'] then
    -- in.erase(in.find('%')): keep the text before the first '%' when one
    -- exists, otherwise erase throws
    if (s.data.drop 2).any (fun c => c == '%') then
      let tokens := mylibSplit (trimChars ((s.data.drop 2).takeWhile (fun c => !(c == '%')))) ' '
      match tokens with
      | [t0, t1, t2, t3] =>
        if t0 = "for".data ∧ t2 = "as".data then
          mkForValue (String.mk t1) (String.mk t3)
        else .error (.expressionSyntaxError "Unrecognized for expression syntax")
      | _ => .error (.expressionSyntaxError "Unrecognized for expression syntax")
    else .error (.runtimeError "basic_string::erase: out of range")
  else .error (.invalidTag "Tag must be enclosed with \x7b% and %\x7d")

/-- Whether a resolution result is a `MissingTag` failure. -/
def resultIsMissingTag : Except TemplateError Data → Bool
  | .error e => e.isMissingTag
  | .ok _ => false

/-- The context of C6's worked example:
`\x7buser: \x7bname: "Ann", tags: ["a","b"]\x7d\x7d`. -/
def c6Ctx : DataMap :=
  [("user", Data.map [("name", Data.str "Ann"),
                      ("tags", Data.list [Data.str "a", Data.str "b"])])]

/-- An If/Elif/Else chain in which both an Elif branch and an Else
branch fire during one evaluation. -/
def c1Chain : Node := .ifValue "x" [.elifValue "a" [.text "A"], .elseValue [.text "B"]]

/-- A context binding `a` but not the chain's own name `x`. -/
def c1Ctx : DataMap := [("a", Data.str "1")]

/-- The per-iteration behaviour C3 claims: each list element is taken in
order, the body children are all evaluated against the *caller's* map
extended with the alias bound to that element, and the outputs are
concatenated (an exception aborts the remaining iterations). -/
def iterBody (cs : List Node) (aliasName : String) (kv : DataMap) :
    List Data → Except TemplateError String
  | [] => .ok ""
  | item :: rest =>
    match evalSeq cs (dmInsert kv aliasName item) with
    | .error e => .error e
    | .ok s =>
      match iterBody cs aliasName kv rest with
      | .error e => .error e
      | .ok t => .ok (s ++ t)

/-- Whether a character list starts with `.`. -/
def headIsDot : List Char → Bool
  | c :: _ => c == '.'
  | [] => false

/-- The spec's path-expression grammar (§6), amended to a starred class:
`[A-Za-z0-9_\-\[\]\.]*` with no occurrence of `..`, as a left-to-right
matcher whose Boolean state records whether the previous character was a
dot. -/
def specPathExprAux : Bool → List Char → Bool
  | _, [] => true
  | prevDot, c :: rest =>
    if specialNameChar c then
      if c == '.' then
        if prevDot then false else specPathExprAux true rest
      else specPathExprAux false rest
    else false

/-- The spec's path-expression grammar over a string (amended: star
instead of plus, so the empty string matches). -/
def specPathExpr (s : String) : Bool :=
  specPathExprAux false s.data

/-- The spec's plain-name grammar (§6), amended to `[A-Za-z0-9_-]*`. -/
def specPlainName : List Char → Bool
  | [] => true
  | c :: rest => genericNameChar c && specPlainName rest

/-! ## Theorems -/

/-- C2: for every `ValueNode` path and context, evaluation writes exactly
the resolved string when the path resolves to a `String`; a `MissingTag`
failure is absorbed and nothing is written (no error is raised); a `List`
or `Mapping` result fails `InvalidTag`; and every failure kind other than
`MissingTag` propagates to the caller. -/
theorem c2_value_substitution (name : String) (kv : DataMap) :
    evalNode (.value name) kv =
      match parse_tag name kv with
      | .ok (.str s) => .ok s
      | .ok (.list _) => .error (.invalidTag "Invalid tag name: Name must reference a string")
      | .ok (.map _) => .error (.invalidTag "Invalid tag name: Name must reference a string")
      | .error e => if e.isMissingTag then .ok "" else .error e := by
  simp only [evalNode, parse_tag_string]
  cases h : parse_tag name kv with
  | error e => simp
  | ok d => cases d <;> simp [TemplateError.isMissingTag]

/-- C4: `ForValue::evaluate` resolves its source as a list first, and any
resolution failure (`MissingTag` included) propagates uncaught; when the
source does resolve to a list but the alias is already a key of the
context, evaluation fails `InvalidTag` before any iteration runs. -/
theorem c4_for_failure_propagation (kv : DataMap) (name aliasName : String) (cs : List Node) :
    (∀ e, parse_tag_list name kv = .error e →
        evalNode (.forValue name aliasName cs) kv = .error e)
  ∧ (∀ items, parse_tag_list name kv = .ok items → dmCount kv aliasName = true →
        evalNode (.forValue name aliasName cs) kv =
          .error (.invalidTag "For expression alias name collides with an existing name")) := by
  constructor
  · intro e he
    simp [evalNode, he]
  · intro items hi ha
    simp [evalNode, hi, ha]

/-- C4 witness: with context `\x7b\x7d` the loop source `m` is missing and the
error propagates; with an alias `a` already bound, evaluation fails
`InvalidTag` with no regard to the body. -/
theorem c4_for_failure_propagation_witness :
    evalNode (.forValue "m" "a" []) [] = .error (.missingTag "Tag name not found")
  ∧ evalNode (.forValue "xs" "a" []) [("xs", Data.list []), ("a", Data.str "1")] =
      .error (.invalidTag "For expression alias name collides with an existing name") :=
  ⟨(c4_for_failure_propagation [] "m" "a" []).1 (.missingTag "Tag name not found") (by rfl),
   (c4_for_failure_propagation [("xs", Data.list []), ("a", Data.str "1")] "xs" "a" []).2
     [] (by rfl) (by rfl)⟩

/-- C5: a final path segment carrying an index `n` fails `InvalidTag` and
never returns a value when `n` is negative (already at segment parsing,
at any position), when the segment's value is a list of length `≤ n`, or
when it is not a list at all (string indexing included). -/
theorem c5_final_index_invalid (seg : List Char) (kv : DataMap) :
    (∀ p n rest, seg.findIdx? (fun c => c == '[') = some p →
        parse_array_index (seg.drop p) = .ok n → n < 0 →
        resolveSegs seg rest kv =
          .error (.invalidTag "Invalid array index: Value must not be negative"))
  ∧ (∀ mapName n l, parse_tag_name seg = .ok (mapName, n) → 0 ≤ n →
        dmFind? kv (String.mk mapName) = some (.list l) → (l.length : Int) ≤ n →
        resolveSegs seg [] kv = .error (.invalidTag "Index out of range"))
  ∧ (∀ mapName n d, parse_tag_name seg = .ok (mapName, n) → 0 ≤ n →
        dmFind? kv (String.mk mapName) = some d → (∀ l, d ≠ .list l) →
        resolveSegs seg [] kv =
          .error (.invalidTag "Only lists are supported by array indexes")) := by
  refine ⟨?_, ?_, ?_⟩
  · intro p n rest hf hp hn
    have hname : parse_tag_name seg =
        .error (.invalidTag "Invalid array index: Value must not be negative") := by
      simp [parse_tag_name, hf, hp, hn]
    cases rest <;> simp [resolveSegs, hname]
  · intro mapName n l hp hn hfind hlen
    have h1 : ¬ n < 0 := by omega
    simp [resolveSegs, hp, hfind, h1, hlen]
  · intro mapName n d hp hn hfind hnl
    have h1 : ¬ n < 0 := by omega
    cases d with
    | str t => simp [resolveSegs, hp, hfind, h1]
    | list l => exact absurd rfl (hnl l)
    | map m => simp [resolveSegs, hp, hfind, h1]

/-- C5 witness: `a[-2]` fails on the negative index, `xs[5]` on a
length-1 list fails out of range, and `s[0]` on a string value fails the
lists-only rule. -/
theorem c5_final_index_invalid_witness :
    resolveSegs "a[-2]".data [] [] =
      .error (.invalidTag "Invalid array index: Value must not be negative")
  ∧ resolveSegs "xs[5]".data [] [("xs", Data.list [Data.str "a"])] =
      .error (.invalidTag "Index out of range")
  ∧ resolveSegs "s[0]".data [] [("s", Data.str "x")] =
      .error (.invalidTag "Only lists are supported by array indexes") :=
  ⟨(c5_final_index_invalid "a[-2]".data []).1 1 (-2) [] (by rfl) (by rfl) (by decide),
   (c5_final_index_invalid "xs[5]".data [("xs", Data.list [Data.str "a"])]).2.1
     "xs".data 5 [Data.str "a"] (by rfl) (by decide) (by rfl) (by decide),
   (c5_final_index_invalid "s[0]".data [("s", Data.str "x")]).2.2
     "s".data 0 (Data.str "x") (by rfl) (by decide) (by rfl) (fun l h => nomatch h)⟩

/-- C6 counterexample: the path `missing[-1]`, whose segment name
`missing` is absent from the empty context, nevertheless fails
`InvalidTag` (the negative-index check of `parse_tag_name` runs before
the existence check), contradicting the claim that an absent name at any
step fails with `MissingTag`. -/
theorem c6_missing_name_counterexample :
    parse_tag "missing[-1]" [] =
      .error (.invalidTag "Invalid array index: Value must not be negative")
  ∧ resultIsMissingTag (parse_tag "missing[-1]" []) = false :=
  ⟨by rfl, by rfl⟩

/-- C6 (amended): when a segment parses successfully (its index
annotation, if any, is well-formed and non-negative) and its name is
absent from the current mapping, resolution fails with `MissingTag` at
any step; a malformed or negative index fails `InvalidTag` even at an
absent name.  The worked examples hold: `user.tags[1]` resolves to `"b"`,
`user.tags[5]` fails `InvalidTag`, `missing.x` fails `MissingTag`. -/
theorem c6_missing_name_amended :
    (∀ (seg : List Char) (rest : List (List Char)) (kv : DataMap)
       (mapName : List Char) (n : Int),
      parse_tag_name seg = .ok (mapName, n) →
      dmFind? kv (String.mk mapName) = none →
      resolveSegs seg rest kv = .error (.missingTag "Tag name not found"))
  ∧ parse_tag "user.tags[1]" c6Ctx = .ok (.str "b")
  ∧ parse_tag "user.tags[5]" c6Ctx = .error (.invalidTag "Index out of range")
  ∧ parse_tag "missing.x" c6Ctx = .error (.missingTag "Tag name not found") := by
  refine ⟨?_, rfl, rfl, rfl⟩
  intro seg rest kv mapName n hp hf
  cases rest <;> simp [resolveSegs, hp, hf]

/-- C6 witness: the absent name `zz` fails `MissingTag` in the empty
context. -/
theorem c6_missing_name_witness :
    resolveSegs "zz".data [] [] = .error (.missingTag "Tag name not found") :=
  c6_missing_name_amended.1 "zz".data [] [] "zz".data (-1) (by rfl) (by rfl)

/-- C7: each non-final path segment must resolve within the current
mapping to a nested Mapping (which becomes the current mapping) or to a
List whose in-range indexed element is a Mapping (which becomes the
current mapping); any other shape — a String, a List element that is not
a Mapping, or an out-of-range (or negative, via the `size_t` conversion)
index — fails `InvalidTag`. -/
theorem c7_intermediate_segments (seg seg2 : List Char) (rest2 : List (List Char))
    (kv : DataMap) (mapName : List Char) (n : Int) (d : Data)
    (hname : parse_tag_name seg = .ok (mapName, n))
    (hfound : dmFind? kv (String.mk mapName) = some d) :
    (∀ m, d = .map m → resolveSegs seg (seg2 :: rest2) kv = resolveSegs seg2 rest2 m)
  ∧ (∀ l m, d = .list l → 0 ≤ n → n < (l.length : Int) →
      l.getD n.toNat (.str "") = .map m →
      resolveSegs seg (seg2 :: rest2) kv = resolveSegs seg2 rest2 m)
  ∧ (∀ l, d = .list l → (n < 0 ∨ (l.length : Int) ≤ n) →
      resolveSegs seg (seg2 :: rest2) kv = .error (.invalidTag "Index out of range"))
  ∧ (∀ l, d = .list l → 0 ≤ n → n < (l.length : Int) →
      (∀ m, l.getD n.toNat (.str "") ≠ .map m) →
      resolveSegs seg (seg2 :: rest2) kv =
        .error (.invalidTag "Invalid index: Name does not match a map object"))
  ∧ (∀ t, d = .str t → resolveSegs seg (seg2 :: rest2) kv =
        .error (.invalidTag "Invalid index: Name does not match a map object")) := by
  refine ⟨?_, ?_, ?_, ?_, ?_⟩
  · intro m hd; subst hd
    conv_lhs => rw [resolveSegs.eq_def]
    simp [hname, hfound]
  · intro l m hd h0 hlt hget; subst hd
    have hcond : ¬ (n < 0 ∨ (l.length : Int) ≤ n) := by omega
    rw [List.getD_eq_getElem?_getD] at hget
    conv_lhs => rw [resolveSegs.eq_def]
    simp [hname, hfound, hcond, hget]
  · intro l hd hcond; subst hd
    conv_lhs => rw [resolveSegs.eq_def]
    simp [hname, hfound, hcond]
  · intro l hd h0 hlt hne; subst hd
    have hcond : ¬ (n < 0 ∨ (l.length : Int) ≤ n) := by omega
    cases hget : l.getD n.toNat (.str "") with
    | str t =>
      rw [List.getD_eq_getElem?_getD] at hget
      conv_lhs => rw [resolveSegs.eq_def]
      simp [hname, hfound, hcond, hget]
    | list l2 =>
      rw [List.getD_eq_getElem?_getD] at hget
      conv_lhs => rw [resolveSegs.eq_def]
      simp [hname, hfound, hcond, hget]
    | map m => exact absurd hget (hne m)
  · intro t hd; subst hd
    conv_lhs => rw [resolveSegs.eq_def]
    simp [hname, hfound]

/-- C7 witness: descending `a.b` through a nested mapping, and failing
`InvalidTag` on a string-valued intermediate segment. -/
theorem c7_intermediate_segments_witness :
    resolveSegs "a".data ["b".data] [("a", Data.map [("b", Data.str "v")])] =
      resolveSegs "b".data [] [("b", Data.str "v")]
  ∧ resolveSegs "a".data ["b".data] [("a", Data.str "t")] =
      .error (.invalidTag "Invalid index: Name does not match a map object") :=
  ⟨(c7_intermediate_segments "a".data "b".data [] [("a", Data.map [("b", Data.str "v")])]
      "a".data (-1) (Data.map [("b", Data.str "v")]) (by rfl) (by rfl)).1
      [("b", Data.str "v")] rfl,
   (c7_intermediate_segments "a".data "b".data [] [("a", Data.str "t")]
      "a".data (-1) (Data.str "t") (by rfl) (by rfl)).2.2.2.2 "t" rfl⟩

/-- The then-branch loop of `IfValue::evaluate` evaluates exactly the
children before the first Elif/Else child. -/
theorem evalThen_eq_takeWhile (cs : List Node) (kv : DataMap) :
    evalThen cs kv = evalSeq (cs.takeWhile fun c => !c.isElifOrElse) kv := by
  induction cs with
  | nil => simp [evalThen, evalSeq]
  | cons c cs ih =>
    by_cases h : c.isElifOrElse
    · simp [evalThen, evalSeq, h, List.takeWhile_cons]
    · simp [evalThen, h, List.takeWhile_cons, evalSeq, ih]

/-- The else-branch loop of `IfValue::evaluate` evaluates every
Elif/Else child (and nothing else). -/
theorem evalElse_eq_filter (cs : List Node) (kv : DataMap) :
    evalElse cs kv = evalSeq (cs.filter fun c => c.isElifOrElse) kv := by
  induction cs with
  | nil => simp [evalElse, evalSeq]
  | cons c cs ih =>
    by_cases h : c.isElifOrElse
    · simp [evalElse, h, List.filter_cons, evalSeq, ih]
    · simp [evalElse, h, List.filter_cons, ih]

/-- C1 counterexample: with `x` absent and `a` present,
`IfValue::evaluate` runs *both* the Elif child (whose own condition
holds, writing `A`) and the Else child (writing `B`), so the chain does
not select exactly one branch and evaluation is not limited to the first
Elif/Else child. -/
theorem c1_branch_selection_counterexample :
    evalNode c1Chain c1Ctx = .ok "AB" ∧ evalNode c1Chain c1Ctx ≠ .ok "A" := by
  have h : evalNode c1Chain c1Ctx = .ok "AB" := by
    simp [c1Chain, c1Ctx, evalNode, evalThen, evalElse, evalSeq, dmCount, Node.isElifOrElse]
  refine ⟨h, ?_⟩
  rw [h]
  intro hcontra
  simp at hcontra

/-- C1 (amended): if the IfNode's name exists as a key in the context,
exactly the children before the first Elif/Else child are evaluated, in
order; if it is absent, *every* Elif/Else child is evaluated, in order
(each Elif recursing the same existence check on its own name, each Else
running unconditionally), and the non-Elif/Else children are skipped.
`ElifValue` inherits `IfValue`'s evaluation unchanged, and `ElseValue`
runs all of its children. -/
theorem c1_branch_selection_amended (name : String) (cs cs2 : List Node) (kv : DataMap) :
    evalNode (.ifValue name cs) kv =
      (if dmCount kv name then evalSeq (cs.takeWhile fun c => !c.isElifOrElse) kv
       else evalSeq (cs.filter fun c => c.isElifOrElse) kv)
  ∧ evalNode (.elifValue name cs) kv = evalNode (.ifValue name cs) kv
  ∧ evalNode (.elseValue cs2) kv = evalSeq cs2 kv := by
  refine ⟨?_, ?_, ?_⟩
  · by_cases h : dmCount kv name <;>
      simp [evalNode, h, evalThen_eq_takeWhile, evalElse_eq_filter]
  · simp [evalNode]
  · simp [evalNode]

/-- Overwriting the same key twice in a map keeps only the last value
(`std::map::operator[]` assignment). -/
theorem dmInsert_dmInsert (m : DataMap) (k : String) (x y : Data) :
    dmInsert (dmInsert m k x) k y = dmInsert m k y := by
  induction m with
  | nil => simp [dmInsert]
  | cons p rest ih =>
    obtain ⟨k', v'⟩ := p
    by_cases h : k' == k
    · simp [dmInsert, h]
    · simp [dmInsert, h, ih]

/-- The loop of `ForValue::evaluate`, which threads one mutated
`newValues` map through the iterations, is equivalent to rebuilding the
iteration context from the caller's map each time: overwriting the alias
is the only mutation, so earlier iterations cannot leak anything else. -/
theorem evalFor_eq_iterBody (aliasName : String) (cs : List Node) (items : List Data)
    (kv m : DataMap)
    (hm : ∀ item, dmInsert m aliasName item = dmInsert kv aliasName item) :
    evalFor aliasName cs items m = iterBody cs aliasName kv items := by
  induction items generalizing m with
  | nil => simp [evalFor, iterBody]
  | cons item rest ih =>
    have ih' := ih (dmInsert kv aliasName item)
      (fun it => by rw [dmInsert_dmInsert])
    simp only [evalFor, iterBody, hm item, ih']

/-- C3: when the source path resolves to a list and the alias is not yet
a key of the context, `ForValue::evaluate` runs the body once per list
element, in order, the i-th iteration evaluating all body children
against the caller's context plus the binding alias→element i (the
caller's context itself is left untouched by the iterations, so the
binding cannot leak past the loop). -/
theorem c3_for_iteration (kv : DataMap) (name aliasName : String) (cs : List Node)
    (items : List Data) (hsrc : parse_tag_list name kv = .ok items)
    (halias : dmCount kv aliasName = false) :
    evalNode (.forValue name aliasName cs) kv = iterBody cs aliasName kv items := by
  simp [evalNode, hsrc, halias]
  exact evalFor_eq_iterBody aliasName cs items kv kv (fun it => rfl)

/-- C3 witness: iterating `xs = ["p","q"]` with alias `i` over the body
`\x7b$i\x7d` takes the two elements in order. -/
theorem c3_for_iteration_witness :
    parse_tag_list "xs" [("xs", Data.list [Data.str "p", Data.str "q"])] =
      .ok [Data.str "p", Data.str "q"]
  ∧ dmCount [("xs", Data.list [Data.str "p", Data.str "q"])] "i" = false
  ∧ evalNode (.forValue "xs" "i" [.value "i"]) [("xs", Data.list [Data.str "p", Data.str "q"])] =
      iterBody [.value "i"] "i" [("xs", Data.list [Data.str "p", Data.str "q"])]
        [Data.str "p", Data.str "q"] :=
  ⟨by rfl, by rfl,
   c3_for_iteration [("xs", Data.list [Data.str "p", Data.str "q"])] "xs" "i" [.value "i"]
     [Data.str "p", Data.str "q"] (by rfl) (by rfl)⟩

theorem hasDoubleDot_cons (c : Char) (rest : List Char) :
    hasDoubleDot (c :: rest) = ((c == '.') && headIsDot rest || hasDoubleDot rest) := by
  cases rest with
  | nil => simp [hasDoubleDot, headIsDot]
  | cons c2 r2 => simp [hasDoubleDot, headIsDot]

theorem specPathExprAux_eq (l : List Char) : ∀ b : Bool,
    specPathExprAux b l =
      (l.all specialNameChar && !hasDoubleDot l && !(b && headIsDot l)) := by
  induction l with
  | nil => intro b; simp [specPathExprAux, hasDoubleDot, headIsDot]
  | cons c rest ih =>
    intro b
    simp only [specPathExprAux]
    by_cases hc : specialNameChar c
    · by_cases hdot : c == '.'
      · cases b with
        | true =>
          simp [hc, hdot, headIsDot, hasDoubleDot_cons, List.all_cons]
        | false =>
          simp [hc, hdot, headIsDot, hasDoubleDot_cons, List.all_cons, ih true]
          cases rest.all specialNameChar <;> cases headIsDot rest <;>
            cases hasDoubleDot rest <;> simp
      · simp [hc, hdot, headIsDot, hasDoubleDot_cons, List.all_cons, ih false]
    · simp [hc, List.all_cons]

/-- The code's `isValidNameExpression` recognises exactly the (amended)
spec path-expression grammar. -/
theorem isValidNameExpression_eq_spec (s : String) :
    isValidNameExpression s = specPathExpr s := by
  simp [isValidNameExpression, specPathExpr, specPathExprAux_eq]

/-- The code's `isValidName` recognises exactly the (amended) spec
plain-name grammar. -/
theorem isValidName_eq_spec (s : String) :
    isValidName s = specPlainName s.data := by
  rw [isValidName]
  induction s.data with
  | nil => simp [specPlainName]
  | cons c rest ih => simp [specPlainName, List.all_cons, ih]

/-- C8 counterexample: the empty string does not match the claimed
`[A-Za-z0-9_\-\[\]\.]+` grammar (the `+` requires at least one
character), yet constructing a ValueNode, an IfNode, or a ForNode alias
from it succeeds — `std::all_of` is vacuously true on an empty range, so
construction does not fail `InvalidTag`. -/
theorem c8_empty_name_counterexample :
    mkValue "" = .ok (.value "")
  ∧ mkIfValue "" = .ok (.ifValue "" [])
  ∧ mkForValue "x" "" = .ok (.forValue "x" "" []) :=
  ⟨by rfl, by rfl, by rfl⟩

/-- C8 (amended): constructing a ValueNode, IfNode, or ForNode fails
`InvalidTag` immediately at construction if and only if the path does
not match the *starred* grammar `[A-Za-z0-9_\-\[\]\.]*` with no
occurrence of `..` (the empty string is accepted), and a ForNode alias
must likewise match `[A-Za-z0-9_-]*`. -/
theorem c8_grammar_amended (s aliasName : String) :
    mkValue s =
      (if specPathExpr s then .ok (.value s)
       else .error (.invalidTag "Variable tag name contains invalid characters"))
  ∧ mkIfValue s =
      (if specPathExpr s then .ok (.ifValue s [])
       else .error (.invalidTag "If expression tag name contains invalid characters"))
  ∧ mkForValue s aliasName =
      (if ¬ specPathExpr s = true then
         .error (.invalidTag "For expression first tag name contains invalid characters")
       else if ¬ specPlainName aliasName.data = true then
         .error (.invalidTag "For expression second tag name contains invalid characters")
       else .ok (.forValue s aliasName [])) := by
  refine ⟨?_, ?_, ?_⟩ <;>
    simp [mkValue, mkIfValue, mkForValue, isValidNameExpression_eq_spec, isValidName_eq_spec]

theorem isPrefixOf_append_self (pre rest : List Char) :
    pre.isPrefixOf (pre ++ rest) = true := by
  induction pre with
  | nil => simp [List.isPrefixOf]
  | cons c cs ih => simp [List.isPrefixOf, ih]

theorem endsWith_append (xs suf : List Char) :
    endsWithChars (xs ++ suf) suf = true := by
  simp only [endsWithChars, List.isSuffixOf, List.reverse_append]
  exact isPrefixOf_append_self suf.reverse xs.reverse

theorem takeWhile_append_all (p : Char → Bool) (l1 l2 : List Char)
    (h : ∀ c ∈ l1, p c = true) :
    (l1 ++ l2).takeWhile p = l1 ++ l2.takeWhile p := by
  induction l1 with
  | nil => simp
  | cons c cs ih =>
    simp [List.takeWhile_cons, h c (by simp),
      ih (fun c2 hc2 => h c2 (by simp [hc2]))]

/-- C9 counterexample: the for-tag `\x7b%for a as b%c d%\x7d` is
delimited by `\x7b%` and `%\x7d`, and its trimmed interior
`for a as b%c d` splits on single spaces into five tokens, so the claim
requires `ExpressionSyntaxError`; but the parser cuts the interior at
the *first* `%` (`in.erase(in.find('%'))`), sees only the four tokens
`for a as b`, and successfully constructs `ForNode("a","b")`. -/
theorem c9_for_tag_tokens_counterexample :
    (mylibSplit (trimChars "for a as b%c d".data) ' ').length = 5
  ∧ parse_forvalue_tag "{%for a as b%c d%}" = .ok (.forValue "a" "b" []) :=
  ⟨by rfl, by rfl⟩

/-- C9 (amended): the parser's interior is the text between the opening
`\x7b%` and the *first* `%` after it — anything between that `%` and
the closing `%\x7d` is silently ignored.  The trimmed interior must
split on single spaces into exactly four tokens `for <source> as
<alias>`, building ForNode(source, alias); any other token count, or a
first token other than `for`, or a third token other than `as`, fails
with `ExpressionSyntaxError`, a kind distinct from `InvalidTag`.
Interior `for items as item` yields `ForNode(source="items",
alias="item")`, `for items in item` fails `ExpressionSyntaxError`, and
the degenerate three-character overlap `\x7b%\x7d`, with no `%` after
the opening delimiter, raises C++ `std::out_of_range` from `erase`
(modelled as `runtimeError`). -/
theorem c9_for_tag_tokens :
    (∀ (s : String) (mid rest : List Char),
      s.data = '{' :: '%' :: (mid ++ '%' :: rest) →
      (∀ c ∈ mid, (c == '%') = false) →
      endsWithChars s.data ['%', '}'] = true →
      ((∀ t0 t1 t2 t3, mylibSplit (trimChars mid) ' ' = [t0, t1, t2, t3] →
          parse_forvalue_tag s =
            (if t0 = "for".data ∧ t2 = "as".data then
               mkForValue (String.mk t1) (String.mk t3)
             else .error (.expressionSyntaxError "Unrecognized for expression syntax")))
        ∧ ((mylibSplit (trimChars mid) ' ').length ≠ 4 →
            parse_forvalue_tag s =
              .error (.expressionSyntaxError "Unrecognized for expression syntax"))))
  ∧ (∀ m1 m2, TemplateError.expressionSyntaxError m1 ≠ TemplateError.invalidTag m2)
  ∧ parse_forvalue_tag "{% for items as item %}" = .ok (.forValue "items" "item" [])
  ∧ parse_forvalue_tag "{% for items in item %}" =
      .error (.expressionSyntaxError "Unrecognized for expression syntax")
  ∧ parse_forvalue_tag "{%}" =
      .error (.runtimeError "basic_string::erase: out of range") := by
  have hdistinct : ∀ m1 m2 : String,
      TemplateError.expressionSyntaxError m1 ≠ TemplateError.invalidTag m2 :=
    fun m1 m2 h => TemplateError.noConfusion h
  have hex1 : parse_forvalue_tag "{% for items as item %}" =
      .ok (.forValue "items" "item" []) := by rfl
  have hex2 : parse_forvalue_tag "{% for items in item %}" =
      .error (.expressionSyntaxError "Unrecognized for expression syntax") := by rfl
  have hex3 : parse_forvalue_tag "{%}" =
      .error (.runtimeError "basic_string::erase: out of range") := by rfl
  refine ⟨?_, hdistinct, hex1, hex2, hex3⟩
  intro s mid rest hdata hmid hsuf
  have hpre : startsWithChars s.data ['{', '%'] = true := by
    rw [hdata]; simp [startsWithChars, List.isPrefixOf]
  have hdrop : s.data.drop 2 = mid ++ '%' :: rest := by rw [hdata]; rfl
  have hany : (s.data.drop 2).any (fun c => c == '%') = true := by
    rw [hdrop]; simp
  have htake : (s.data.drop 2).takeWhile (fun c => !(c == '%')) = mid := by
    rw [hdrop, takeWhile_append_all _ _ _ (fun c hc => by simp [hmid c hc])]
    simp [List.takeWhile_cons]
  have hform : parse_forvalue_tag s =
      (match mylibSplit (trimChars mid) ' ' with
       | [t0, t1, t2, t3] =>
         if t0 = "for".data ∧ t2 = "as".data then
           mkForValue (String.mk t1) (String.mk t3)
         else .error (.expressionSyntaxError "Unrecognized for expression syntax")
       | _ => .error (.expressionSyntaxError "Unrecognized for expression syntax")) := by
    simp only [parse_forvalue_tag, hpre, hsuf, hany, htake, Bool.and_self, if_true]
  constructor
  · intro t0 t1 t2 t3 hsplit
    rw [hform, hsplit]
  · intro hlen
    rw [hform]
    rcases hq : mylibSplit (trimChars mid) ' ' with
      _ | ⟨t0, _ | ⟨t1, _ | ⟨t2, _ | ⟨t3, _ | ⟨t4, more⟩⟩⟩⟩⟩
    · rfl
    · rfl
    · rfl
    · rfl
    · exact absurd (by rw [hq]; rfl) hlen
    · rfl

/-- C9 witness: a concrete well-formed for-tag, handed to the general
part of the claim. -/
theorem c9_for_tag_tokens_witness :
    parse_forvalue_tag "{%for a as b%}" =
      (if "for".data = "for".data ∧ "as".data = "as".data then
         mkForValue (String.mk "a".data) (String.mk "b".data)
       else .error (.expressionSyntaxError "Unrecognized for expression syntax")) :=
  (c9_for_tag_tokens.1 "{%for a as b%}" "for a as b".data ['}']
      (by rfl) (by decide) (by rfl)).1
    "for".data "a".data "as".data "b".data (by rfl)

/-- C10: for every input that starts with `\x7b$` and ends with `\x7d`,
the value-tag parser takes as the node's path the trimmed text strictly
between the opening `\x7b$` and the *first* `\x7d` after it; whatever
stands between that first `\x7d` and the final one is silently
discarded, never rejected: `\x7b$a\x7db\x7d` constructs a ValueNode
named `a`, and so does `\x7b$a\x7d%%\x7d` even though `%` could never
pass name validation. -/
theorem c10_value_tag_interior :
    (∀ (s : String) (mid rest : List Char),
      s.data = '{' :: '$' :: (mid ++ '}' :: rest) →
      (∀ c ∈ mid, (c == '}') = false) →
      endsWithChars s.data ['}'] = true →
      parse_value_tag s = mkValue (String.mk (trimChars mid)))
  ∧ parse_value_tag "\x7b$a\x7db\x7d" = .ok (.value "a")
  ∧ parse_value_tag "\x7b$a\x7d%%\x7d" = .ok (.value "a") := by
  refine ⟨?_, by rfl, by rfl⟩
  intro s mid rest hdata hmid hend
  have hpre : startsWithChars s.data ['{', '$'] = true := by
    rw [hdata]; simp [startsWithChars, List.isPrefixOf]
  have hdrop : s.data.drop 2 = mid ++ '}' :: rest := by rw [hdata]; rfl
  have htake : (s.data.drop 2).takeWhile (fun c => !(c == '}')) = mid := by
    rw [hdrop, takeWhile_append_all _ _ _ (fun c hc => by simp [hmid c hc])]
    simp [List.takeWhile_cons]
  simp only [parse_value_tag, hpre, hend, htake, Bool.and_self, if_true]

/-- C10 witness: a concrete value tag with trailing discarded text,
handed to the general part of the claim. -/
theorem c10_value_tag_interior_witness :
    parse_value_tag "\x7b$ x \x7dy\x7d" = mkValue (String.mk (trimChars " x ".data)) :=
  c10_value_tag_interior.1 "\x7b$ x \x7dy\x7d" " x ".data ['y', '}'] (by rfl) (by decide) (by rfl)

end Templet
